import Mathlib

/-!
Verification development for the book-keeper single-page management console
(frontend for a personal book-cataloging application).

The definitions below are shallow embeddings of the TypeScript source:

* `ShelfOverview` (drag-and-drop board): `reindexPlacements`,
  `buildPlacementFromBook`, `addBookToRow`, `moveBookBetweenRows`,
  `handleDragEnd` (with `resolveInsertionIndex`), `totalSlots`;
* the per-row `handleRowDragEnd` of the simpler `ShelfOverview.tsx` variant;
* `PlacementDialog.computeAvailableSlots`;
* `SearchView.totalPages` and the "Next" button's disabled condition;
* `api/client.buildAssetUrl`;
* `InventoryView.clearPlacementMutation`'s cache invalidations and the
  derived unplaced/placed partition of the collection view.

JavaScript numbers that are always non-negative integers in the program
(ids, indices, counts, slot numbers) are modelled as `Nat`; JavaScript
array `splice` insertion (which clamps the index to the array length) is
modelled by `spliceInsert`; the optional drag/drop metadata fields are
modelled with `Option`.
-/

/-- A book record as the client sees it.  Only the fields the verified
operations read are carried: `id`, the display strings, and the placement
back-reference `shelf_row_id` (absent means unplaced). -/
structure Book where
  id : Nat
  title : Option String := none
  authors : Option String := none
  shelf_row_id : Option Nat := none
  deriving DecidableEq, Repr

/-- A placement entry of a row (`ShelfPlacement` in `api/types`):
the placed book's id, its display strings, and its 1-based slot index. -/
structure ShelfPlacement where
  book_id : Nat
  title : Option String := none
  authors : Option String := none
  slot_index : Nat
  deriving DecidableEq, Repr

/-- Embeds `reindexPlacements` of `ShelfOverview`: renumber `slot_index`
densely to `index + 1` in list order, keeping every other field. -/
def reindexPlacements (placements : List ShelfPlacement) : List ShelfPlacement :=
  placements.mapIdx fun index placement => { placement with slot_index := index + 1 }

/-- Embeds `buildPlacementFromBook` of `ShelfOverview`: wrap a book as a placement
with provisional slot index 1 (the list is re-indexed right after). -/
def buildPlacementFromBook (book : Book) : ShelfPlacement :=
  { book_id := book.id, title := book.title, authors := book.authors, slot_index := 1 }

/-- JavaScript `array.splice(i, 0, x)`: insert `x` at position `i`,
clamping `i` to the array length (insertion at the end when `i` is larger). -/
def spliceInsert (xs : List α) (i : Nat) (x : α) : List α :=
  xs.take i ++ x :: xs.drop i

/-- Embeds `arrayMove` of `@dnd-kit/sortable` as used by the views: remove the
element at `fromIndex` and re-insert it at `toIndex`.  The views only call
it with `fromIndex` an index returned by a successful `findIndex`, so the
out-of-range case (where the JS helper would insert `undefined`) is mapped
to the identity. -/
def arrayMove (xs : List α) (fromIndex toIndex : Nat) : List α :=
  match xs.get? fromIndex with
  | none => xs
  | some moving => spliceInsert (xs.eraseIdx fromIndex) toIndex moving

/-- The local optimistic state of the shelf-overview board: the per-row
placement lists (`rowPlacementsMap`, `prev[rowId] ?? []` reads make it a
total map with default `[]`) and the cached unplaced-book list
(query key `unplaced-books`, populated before any drag can start). -/
structure LocalState where
  rows : Nat → List ShelfPlacement
  unplaced : List Book

/-- Write one row of the placement map (`{ ...prev, [rowId]: ps }`). -/
def updateRow (rows : Nat → List ShelfPlacement) (rowId : Nat)
    (ps : List ShelfPlacement) : Nat → List ShelfPlacement :=
  fun r => if r = rowId then ps else rows r

/-- The optimistic row update of `addBookToRow`: splice the new placement
into the target row at `targetIndex` and re-index. -/
def addBookOptimisticRows (rows : Nat → List ShelfPlacement) (book : Book)
    (targetRowId targetIndex : Nat) : Nat → List ShelfPlacement :=
  updateRow rows targetRowId
    (reindexPlacements
      (spliceInsert (rows targetRowId) targetIndex (buildPlacementFromBook book)))

/-- The optimistic unplaced-cache update of `addBookToRow`:
`previous.filter((item) => item.id !== book.id)`. -/
def addBookOptimisticUnplaced (unplaced : List Book) (book : Book) : List Book :=
  unplaced.filter fun item => item.id ≠ book.id

/-- Embeds `addBookToRow` with its settlement: the snapshots
(`previousRowPlacements`, `previousUnplaced`) are taken first, the
optimistic edit is applied, and on failure the error callback restores the
target row and the unplaced cache from the snapshots. -/
def addBookToRowOutcome (st : LocalState) (book : Book)
    (targetRowId targetIndex : Nat) (success : Bool) : LocalState :=
  let previousRowPlacements := st.rows targetRowId
  let previousUnplaced := st.unplaced
  let optimistic : LocalState :=
    { rows := addBookOptimisticRows st.rows book targetRowId targetIndex,
      unplaced := addBookOptimisticUnplaced st.unplaced book }
  if success then optimistic
  else
    { rows := updateRow optimistic.rows targetRowId previousRowPlacements,
      unplaced := previousUnplaced }

/-- The optimistic row updates of `moveBookBetweenRows`: locate the moving
book in the source row, splice it out, splice it into the target row at
`targetIndex`, and re-index both rows.  When the book is not found
(`movingIndex === -1`) the map is returned unchanged. -/
def moveRowsOptimistic (rows : Nat → List ShelfPlacement)
    (bookId sourceRowId targetRowId targetIndex : Nat) : Nat → List ShelfPlacement :=
  let source := rows sourceRowId
  let target := rows targetRowId
  match source.findIdx? (fun item => item.book_id = bookId) with
  | none => rows
  | some movingIndex =>
    match source.get? movingIndex with
    | none => rows
    | some moving =>
      let nextSource := reindexPlacements (source.eraseIdx movingIndex)
      let nextTarget := reindexPlacements (spliceInsert target targetIndex moving)
      updateRow (updateRow rows sourceRowId nextSource) targetRowId nextTarget

/-- Embeds `moveBookBetweenRows` with its settlement: an early return when source
and target coincide; otherwise snapshots of both rows are taken, the
optimistic edit is applied, and on failure both rows are restored from the
snapshots. -/
def moveBookBetweenRowsOutcome (st : LocalState)
    (bookId sourceRowId targetRowId targetIndex : Nat) (success : Bool) : LocalState :=
  if sourceRowId = targetRowId then st
  else
    let previousSourcePlacements := st.rows sourceRowId
    let previousTargetPlacements := st.rows targetRowId
    let optimistic : LocalState :=
      { st with rows := moveRowsOptimistic st.rows bookId sourceRowId targetRowId targetIndex }
    if success then optimistic
    else
      { optimistic with
          rows := updateRow (updateRow optimistic.rows sourceRowId previousSourcePlacements)
            targetRowId previousTargetPlacements }

/-- Embeds `reorderWithinRow` (inside `handleDragEnd`) with its settlement: the
updated row is `arrayMove` then re-index; on failure the row is restored
from the `previousRowState` snapshot. -/
def reorderWithinRowOutcome (st : LocalState)
    (sourceRowId fromIndex toIndex : Nat) (success : Bool) : LocalState :=
  let sourcePlacements := st.rows sourceRowId
  let previousRowState := sourcePlacements
  let updatedRow := reindexPlacements (arrayMove sourcePlacements fromIndex toIndex)
  let optimistic : LocalState := { st with rows := updateRow st.rows sourceRowId updatedRow }
  if success then optimistic
  else { optimistic with rows := updateRow optimistic.rows sourceRowId previousRowState }

/-- One drag-and-drop operation of the shelf-overview board together with
the settlement of its backend mutation (`success = false` is the rollback
path). -/
inductive PlacementOp where
  | insert (book : Book) (targetRowId targetIndex : Nat) (success : Bool)
  | move (bookId sourceRowId targetRowId targetIndex : Nat) (success : Bool)
  | reorder (sourceRowId fromIndex toIndex : Nat) (success : Bool)
  deriving DecidableEq, Repr

/-- Whether the operation's backend mutation succeeded. -/
def PlacementOp.success : PlacementOp → Bool
  | .insert _ _ _ s => s
  | .move _ _ _ _ s => s
  | .reorder _ _ _ s => s

/-- Apply one settled operation to the local state. -/
def applyOp (st : LocalState) : PlacementOp → LocalState
  | .insert book targetRowId targetIndex success =>
      addBookToRowOutcome st book targetRowId targetIndex success
  | .move bookId sourceRowId targetRowId targetIndex success =>
      moveBookBetweenRowsOutcome st bookId sourceRowId targetRowId targetIndex success
  | .reorder sourceRowId fromIndex toIndex success =>
      reorderWithinRowOutcome st sourceRowId fromIndex toIndex success

/-- A row's placement list is dense: its slot indices are exactly
`1, 2, …, N` in list order. -/
def dense (ps : List ShelfPlacement) : Prop :=
  ps.map (fun p => p.slot_index) = List.range' 1 ps.length

instance (ps : List ShelfPlacement) : Decidable (dense ps) := by
  unfold dense; infer_instance

/-- Drag source kind (`DragMeta.sourceType`). -/
inductive SourceType where
  | row
  | unplaced
  deriving DecidableEq, Repr

/-- Drop target kind (`DropMeta.targetType`). -/
inductive TargetType where
  | row
  | rowItem
  | rowSlot
  deriving DecidableEq, Repr

/-- Embeds `DragMeta`: metadata attached to the drag source. -/
structure DragMeta where
  sourceType : SourceType
  rowId : Option Nat := none
  bookId : Nat
  book : Option Book := none
  deriving DecidableEq, Repr

/-- Embeds `DropMeta`: metadata attached to the drop target. -/
structure DropMeta where
  targetType : TargetType
  rowId : Nat
  bookId : Option Nat := none
  slotIndex : Option Nat := none
  deriving DecidableEq, Repr

/-- The semantic intent `handleDragEnd` resolves a drag to.  `noop` means
the handler returned without touching local state and without issuing any
network call; the other constructors each issue exactly one optimistic
local edit plus its backend mutation. -/
inductive DragAction where
  | noop
  | reorder (rowId : Nat) (updatedRow : List ShelfPlacement) (order : List Nat)
  | move (bookId sourceRowId targetRowId targetIndex : Nat)
  | insert (book : Book) (targetRowId targetIndex : Nat)
  deriving DecidableEq, Repr

/-- Embeds `resolveInsertionIndex` of `handleDragEnd`: a missing (or `0`, falsy)
slot number means append; otherwise the 0-based index is the slot number
minus one, clamped to the row length. -/
def resolveInsertionIndex (rows : Nat → List ShelfPlacement)
    (rowId : Nat) (slotIndex : Option Nat) : Nat :=
  let placements := rows rowId
  match slotIndex with
  | none => placements.length
  | some s => if s = 0 then placements.length else min (s - 1) placements.length

/-- The reorder intent: updated row is `arrayMove` plus re-index, and the
backend payload is the full ordered list of book ids of that row. -/
def reorderAction (rows : Nat → List ShelfPlacement)
    (rowId fromIndex toIndex : Nat) : DragAction :=
  let updatedRow := reindexPlacements (arrayMove (rows rowId) fromIndex toIndex)
  .reorder rowId updatedRow (updatedRow.map fun item => item.book_id)

/-- Embeds `overMeta.bookId ?? (typeof over.id === "number" ? over.id : undefined)`:
the drop target's book id, falling back to the sortable element's numeric
id. -/
def overBookId (overMeta : DropMeta) (overId : Option Nat) : Option Nat :=
  match overMeta.bookId with
  | some b => some b
  | none => overId

/-- Embeds `handleDragEnd` of `ShelfOverview`: translate the drag source metadata,
the drop target metadata and the drop element's numeric id (when it has
one) into a semantic action, mirroring the branch structure of the
handler. -/
def handleDragEnd (rows : Nat → List ShelfPlacement) (activeMeta : DragMeta)
    (overId : Option Nat) (overMeta : DropMeta) : DragAction :=
  match activeMeta.sourceType with
  | .row =>
    match activeMeta.rowId with
    | none => .noop
    | some sourceRowId =>
      let sourcePlacements := rows sourceRowId
      match sourcePlacements.findIdx? (fun item => item.book_id = activeMeta.bookId) with
      | none => .noop
      | some fromIndex =>
        match overMeta.targetType with
        | .rowItem =>
          let targetRowId := overMeta.rowId
          if targetRowId = sourceRowId then
            match overBookId overMeta overId with
            | none => .noop
            | some overBook =>
              match sourcePlacements.findIdx? (fun item => item.book_id = overBook) with
              | none => .noop
              | some toIndex =>
                if toIndex = fromIndex then .noop
                else reorderAction rows sourceRowId fromIndex toIndex
          else
            let targetPlacements := rows targetRowId
            let insertionIndex :=
              match overBookId overMeta overId with
              | none => targetPlacements.length
              | some overBook =>
                match targetPlacements.findIdx? (fun item => item.book_id = overBook) with
                | none => targetPlacements.length
                | some idx => idx
            .move activeMeta.bookId sourceRowId targetRowId insertionIndex
        | .rowSlot =>
          let targetRowId := overMeta.rowId
          let insertionIndex := resolveInsertionIndex rows targetRowId overMeta.slotIndex
          if targetRowId = sourceRowId then
            let adjustedIndex := if fromIndex < insertionIndex then insertionIndex - 1 else insertionIndex
            if adjustedIndex = fromIndex then .noop
            else reorderAction rows sourceRowId fromIndex adjustedIndex
          else .move activeMeta.bookId sourceRowId targetRowId insertionIndex
        | .row =>
          let targetRowId := overMeta.rowId
          if targetRowId = sourceRowId then
            if fromIndex = sourcePlacements.length - 1 then .noop
            else reorderAction rows sourceRowId fromIndex (sourcePlacements.length - 1)
          else .move activeMeta.bookId sourceRowId targetRowId (rows targetRowId).length
  | .unplaced =>
    match activeMeta.book with
    | none => .noop
    | some book =>
      match overMeta.targetType with
      | .rowItem =>
        let targetRowId := overMeta.rowId
        let targetPlacements := rows targetRowId
        let insertionIndex :=
          match overBookId overMeta overId with
          | none => targetPlacements.length
          | some targetBook =>
            match targetPlacements.findIdx? (fun item => item.book_id = targetBook) with
            | none => targetPlacements.length
            | some idx => idx
        .insert book targetRowId insertionIndex
      | .rowSlot =>
        let targetRowId := overMeta.rowId
        .insert book targetRowId (resolveInsertionIndex rows targetRowId overMeta.slotIndex)
      | .row =>
        let targetRowId := overMeta.rowId
        .insert book targetRowId (rows targetRowId).length

/-- Embeds `handleRowDragEnd` of the per-row `ShelfOverview.tsx` variant: `none`
when the item is dropped on itself or either end of the move cannot be
located; otherwise the re-indexed row and the explicit book-id order sent
to `PUT /api/rows/:id/order`. -/
def handleRowDragEnd (rowPlacements : List ShelfPlacement)
    (activeId overId : Nat) : Option (List ShelfPlacement × List Nat) :=
  if activeId = overId then none
  else
    match rowPlacements.findIdx? (fun item => item.book_id = activeId),
        rowPlacements.findIdx? (fun item => item.book_id = overId) with
    | some oldIndex, some newIndex =>
      let updatedRow := reindexPlacements (arrayMove rowPlacements oldIndex newIndex)
      some (updatedRow, updatedRow.map fun item => item.book_id)
    | _, _ => none

/-- The body of `POST /api/books/:id/placement`. -/
structure AssignPlacementCall where
  bookId : Nat
  rowId : Nat
  slotIndex : Nat
  deriving DecidableEq, Repr

/-- The placement-assignment call issued by `addBookToRow`:
`slotIndex: targetIndex + 1`, the pre-renumbering requested index in
1-based terms. -/
def addBookToRowAssignCall (book : Book) (targetRowId targetIndex : Nat) :
    AssignPlacementCall :=
  { bookId := book.id, rowId := targetRowId, slotIndex := targetIndex + 1 }

/-- The placement-assignment call issued by `moveBookBetweenRows` (none on
the same-row early return): `slotIndex: initialTargetLength + 1`, the
append position of the target row before the move. -/
def moveBookAssignCall (st : LocalState)
    (bookId sourceRowId targetRowId _targetIndex : Nat) : Option AssignPlacementCall :=
  if sourceRowId = targetRowId then none
  else
    let initialTargetLength := (st.rows targetRowId).length
    some { bookId := bookId, rowId := targetRowId, slotIndex := initialTargetLength + 1 }

/-- Embeds `nextTargetOrder` of `moveBookBetweenRows`: the book-id order of the
re-indexed target row, or `[]` when the moving book was not found. -/
def moveNextTargetOrder (st : LocalState)
    (bookId sourceRowId targetRowId targetIndex : Nat) : List Nat :=
  let source := st.rows sourceRowId
  let target := st.rows targetRowId
  match source.findIdx? (fun item => item.book_id = bookId) with
  | none => []
  | some movingIndex =>
    match source.get? movingIndex with
    | none => []
    | some moving =>
      (reindexPlacements (spliceInsert target targetIndex moving)).map
        fun item => item.book_id

/-- Whether `moveBookBetweenRows` issues the follow-up reorder call: only
in the success callback, when `targetIndex !== initialTargetLength` and
`nextTargetOrder` is non-empty (and never on the same-row early return). -/
def moveIssuesReorder (st : LocalState)
    (bookId sourceRowId targetRowId targetIndex : Nat) (success : Bool) : Bool :=
  if sourceRowId = targetRowId then false
  else
    let initialTargetLength := (st.rows targetRowId).length
    let shouldReorderAfterMove := targetIndex ≠ initialTargetLength
    success && shouldReorderAfterMove &&
      0 < (moveNextTargetOrder st bookId sourceRowId targetRowId targetIndex).length

/-- Embeds `MIN_VISIBLE_SLOTS` of `ShelfOverview`. -/
def MIN_VISIBLE_SLOTS : Nat := 4

/-- Embeds `MAX_VIEWPORT_SLOTS` of `ShelfOverview`. -/
def MAX_VIEWPORT_SLOTS : Nat := 6

/-- The capacity guard of `totalSlots`:
`rowInfo.row.capacity && rowInfo.row.capacity > 0 ? capacity : Infinity`.
`none` models both a missing capacity and the falsy/non-positive case
(treated as unbounded). -/
def effectiveCapacity (capacity : Option Nat) : Option Nat :=
  match capacity with
  | some c => if 0 < c then some c else none
  | none => none

/-- Embeds `totalSlots` of `ShelfRowSection`: the number of addressable slots a
row offers, from the current placement count `baseCount`, the row's
declared capacity and the responsive `visibleSlots` window. -/
def totalSlots (baseCount : Nat) (capacity : Option Nat) (visibleSlots : Nat) : Nat :=
  match effectiveCapacity capacity with
  | none => max (baseCount + 1) visibleSlots
  | some c =>
    let hasRoomForNewPlacement := baseCount < c
    let minimumSlots := if hasRoomForNewPlacement then baseCount + 1 else baseCount
    let desired := max minimumSlots visibleSlots
    min desired c

/-- Computes `Math.ceil(total / ps)` for natural `total` and positive `ps`. -/
def ceilDivNat (total ps : Nat) : Nat := (total + ps - 1) / ps

/-- Embeds `totalPages` of `SearchView`:
`Math.max(1, Math.ceil((total || 0) / (page_size || form.pageSize)))`,
where a falsy (zero) response `page_size` falls back to the form's page
size. -/
def totalPages (total pageSize fallbackPageSize : Nat) : Nat :=
  let ps := if pageSize = 0 then fallbackPageSize else pageSize
  max 1 (ceilDivNat total ps)

/-- The disabled condition of the "Next" button of `SearchView`:
`searchQuery.isFetching || searchData.page >= totalPages`. -/
def nextDisabled (isFetching : Bool) (page totalPagesValue : Nat) : Bool :=
  isFetching || decide (totalPagesValue ≤ page)

/-- JavaScript `s.startsWith(p)`, modelled character-wise on the string's
underlying character list. -/
def strStartsWith (s p : String) : Bool :=
  p.data.isPrefixOf s.data

/-- ASCII-lowercase a string character-wise (JavaScript's case-insensitive
regex flag applied to the letters of `http`/`https`). -/
def strLower (s : String) : String :=
  String.mk (s.data.map Char.toLower)

/-- The regex test `/^https?:\/\//i` of `buildAssetUrl`: the path is an
absolute http or https URL (scheme matched case-insensitively). -/
def isAbsoluteUrl (path : String) : Bool :=
  strStartsWith (strLower path) "http://" || strStartsWith (strLower path) "https://"

/-- Embeds `buildAssetUrl` of `api/client`: `undefined` for a missing or empty
(falsy) path, the path itself when already absolute, otherwise the
configured backend base URL prefixed to the path, inserting a `/`
separator when the path does not start with one. -/
def buildAssetUrl (baseURL : String) (path : Option String) : Option String :=
  match path with
  | none => none
  | some p =>
    if p = "" then none
    else if isAbsoluteUrl p then some p
    else some (baseURL ++ (if strStartsWith p "/" then p else "/" ++ p))

/-- Embeds `computeAvailableSlots` of `PlacementDialog`: sort the occupied slot
indices ascending, take the last as `maxSlot` (0 when empty), collect every
unoccupied index from 1 to `maxSlot`, and append `maxSlot + 1 || 1`. -/
def computeAvailableSlots (placements : List ShelfPlacement) : List Nat :=
  let occupied := (placements.map fun p => p.slot_index).insertionSort (· ≤ ·)
  let maxSlot := occupied.getLast?.getD 0
  let available := (List.range' 1 maxSlot).filter fun i => ! occupied.contains i
  available ++ [if maxSlot + 1 = 0 then 1 else maxSlot + 1]

/-- The query keys invalidated by `clearPlacementMutation.onSuccess` in
`InventoryView`. -/
def clearPlacementInvalidatedKeys : List String :=
  ["inventory-search", "shelf-structure"]

/-- The query keys invalidated by `assignPlacementMutation.onSuccess` in
`ShelfOverview` (for contrast with the clear-placement mutation). -/
def assignPlacementInvalidatedKeys : List String :=
  ["shelf-structure", "unplaced-books", "inventory-search"]

/-- The JS truthiness test `!book.shelf_row_id` used by `InventoryView` to
split the collection into unplaced and placed books. -/
def isUnplacedBook (book : Book) : Bool :=
  book.shelf_row_id.getD 0 = 0

/-- Embeds `unplacedBooks` of `InventoryView`:
`books.filter((book) => !book.shelf_row_id)`. -/
def unplacedBooks (books : List Book) : List Book :=
  books.filter fun book => isUnplacedBook book

/-- Modelled from the spec: the effect of the backend's
`DELETE /api/books/:id/placement` endpoint (an external collaborator whose
implementation is not part of this repository) — "removes the book's
placement entirely, returning it to the unplaced set". -/
def clearPlacementServerEffect (books : List Book) (bookId : Nat) : List Book :=
  books.map fun b => if b.id = bookId then { b with shelf_row_id := none } else b

theorem length_reindexPlacements (ps : List ShelfPlacement) :
    (reindexPlacements ps).length = ps.length := by
  simp [reindexPlacements]

theorem getElem_reindexPlacements (ps : List ShelfPlacement) (i : Nat)
    (h : i < ps.length) (h2 : i < (reindexPlacements ps).length) :
    (reindexPlacements ps).get ⟨i, h2⟩ = { ps.get ⟨i, h⟩ with slot_index := i + 1 } := by
  simp only [reindexPlacements, List.mapIdx_eq_enum_map, List.get_eq_getElem]
  simp [List.getElem_map, List.getElem_enum]

theorem dense_reindexPlacements (ps : List ShelfPlacement) :
    dense (reindexPlacements ps) := by
  unfold dense
  apply List.ext_getElem
  · simp [length_reindexPlacements]
  · intro i h1 h2
    have hx : i < ps.length := by
      simpa [length_reindexPlacements] using h1
    have hr : i < (reindexPlacements ps).length := by
      simpa [length_reindexPlacements] using hx
    have hg := getElem_reindexPlacements ps i hx hr
    simp only [List.get_eq_getElem] at hg
    simp only [List.getElem_map, List.getElem_range'_1, hg]
    omega

theorem map_book_id_reindexPlacements (ps : List ShelfPlacement) :
    (reindexPlacements ps).map (fun p => p.book_id) = ps.map fun p => p.book_id := by
  apply List.ext_getElem
  · simp [length_reindexPlacements]
  · intro i h1 h2
    have hx : i < ps.length := by
      simpa [length_reindexPlacements] using h1
    have hr : i < (reindexPlacements ps).length := by
      simpa [length_reindexPlacements] using hx
    have hg := getElem_reindexPlacements ps i hx hr
    simp only [List.get_eq_getElem] at hg
    simp only [List.getElem_map, hg]

theorem updateRow_apply (rows : Nat → List ShelfPlacement) (rowId : Nat)
    (ps : List ShelfPlacement) (r : Nat) :
    updateRow rows rowId ps r = if r = rowId then ps else rows r := rfl

theorem moveRowsOptimistic_cases (rows : Nat → List ShelfPlacement)
    (bookId sourceRowId targetRowId targetIndex r : Nat) :
    moveRowsOptimistic rows bookId sourceRowId targetRowId targetIndex r = rows r ∨
    ∃ ps, moveRowsOptimistic rows bookId sourceRowId targetRowId targetIndex r =
      reindexPlacements ps := by
  unfold moveRowsOptimistic
  simp only [List.get?_eq_getElem?]
  cases hfi : (rows sourceRowId).findIdx? (fun item => item.book_id = bookId) with
  | none => simp [hfi]
  | some movingIndex =>
    cases hget : (rows sourceRowId)[movingIndex]? with
    | none => simp [hfi, hget]
    | some moving =>
      simp only [hfi, hget, updateRow_apply]
      by_cases hrt : r = targetRowId
      · refine Or.inr ⟨spliceInsert (rows targetRowId) targetIndex moving, ?_⟩
        simp [hrt]
      · by_cases hrs : r = sourceRowId
        · refine Or.inr ⟨(rows sourceRowId).eraseIdx movingIndex, ?_⟩
          simp only [hrs, updateRow_apply]
          rw [if_neg (fun h => absurd (hrs.trans h) hrt)]
          simp
        · refine Or.inl ?_
          simp [hrt, hrs]

theorem applyOp_preserves_dense (st : LocalState) (op : PlacementOp) (r : Nat)
    (h : dense (st.rows r)) : dense ((applyOp st op).rows r) := by
  cases op with
  | insert book t i s =>
    show dense ((addBookToRowOutcome st book t i s).rows r)
    unfold addBookToRowOutcome
    cases s with
    | true =>
      simp only [if_true, addBookOptimisticRows, updateRow_apply]
      by_cases hr : r = t
      · subst hr
        simp only [if_pos rfl]
        exact dense_reindexPlacements _
      · simpa [hr] using h
    | false =>
      simp only [Bool.false_eq_true, if_false, addBookOptimisticRows, updateRow_apply]
      by_cases hr : r = t
      · subst hr
        simpa using h
      · simpa [hr] using h
  | move bookId src tgt i s =>
    show dense ((moveBookBetweenRowsOutcome st bookId src tgt i s).rows r)
    unfold moveBookBetweenRowsOutcome
    by_cases hst : src = tgt
    · simpa [hst] using h
    · simp only [if_neg hst]
      cases s with
      | true =>
        simp only [if_true]
        rcases moveRowsOptimistic_cases st.rows bookId src tgt i r with heq | ⟨ps, heq⟩
        · simpa [heq] using h
        · simpa [heq] using dense_reindexPlacements ps
      | false =>
        simp only [Bool.false_eq_true, if_false, updateRow_apply]
        by_cases hrt : r = tgt
        · subst hrt
          simpa using h
        · by_cases hrs : r = src
          · subst hrs
            simpa [hrt] using h
          · simp only [if_neg hrt, if_neg hrs]
            rcases moveRowsOptimistic_cases st.rows bookId src tgt i r with heq | ⟨ps, heq⟩
            · simpa [heq] using h
            · simpa [heq] using dense_reindexPlacements ps
  | reorder src fromIndex toIndex s =>
    show dense ((reorderWithinRowOutcome st src fromIndex toIndex s).rows r)
    unfold reorderWithinRowOutcome
    cases s with
    | true =>
      simp only [if_true, updateRow_apply]
      by_cases hr : r = src
      · subst hr
        simp only [if_pos rfl]
        exact dense_reindexPlacements _
      · simpa [hr] using h
    | false =>
      simp only [Bool.false_eq_true, if_false, updateRow_apply]
      by_cases hr : r = src
      · subst hr
        simpa using h
      · simpa [hr] using h

/-- C1: for every row and every sequence of insert, cross-row-move, and
reorder operations (each the optimistic local application followed by
either success or rollback), if the row's local placement list was dense
before the sequence then it is dense after the sequence; since the
statement holds for an arbitrary sequence from an arbitrary dense start,
it holds in particular after each prefix, i.e. after each operation
completes the row's slot indices are exactly `1..N` in list order, with no
duplicates and no gaps. -/
theorem C1_row_slot_indices_stay_dense (st : LocalState) (r : Nat)
    (h : dense (st.rows r)) (ops : List PlacementOp) :
    dense ((ops.foldl applyOp st).rows r) := by
  induction ops generalizing st with
  | nil => exact h
  | cons op rest ih =>
    exact ih (applyOp st op) (applyOp_preserves_dense st op r h)

/-- Witness for C1 at a concrete input: the empty board is dense at row 7,
and after an insert that succeeds, a cross-row move that succeeds and a
reorder that fails, row 7 is still dense. -/
theorem C1_row_slot_indices_stay_dense_witness :
    dense (({ rows := fun _ => [], unplaced := [{ id := 1 }] } : LocalState).rows 7) ∧
    dense ((([PlacementOp.insert { id := 1 } 7 0 true,
              PlacementOp.move 1 7 8 0 true,
              PlacementOp.reorder 8 0 0 false]).foldl applyOp
        { rows := fun _ => [], unplaced := [{ id := 1 }] }).rows 7) := by
  constructor
  · decide
  · exact C1_row_slot_indices_stay_dense _ 7 (by decide) _

theorem moveRowsOptimistic_other (rows : Nat → List ShelfPlacement)
    (bookId sourceRowId targetRowId targetIndex r : Nat)
    (hrs : r ≠ sourceRowId) (hrt : r ≠ targetRowId) :
    moveRowsOptimistic rows bookId sourceRowId targetRowId targetIndex r = rows r := by
  unfold moveRowsOptimistic
  simp only [List.get?_eq_getElem?]
  cases hfi : (rows sourceRowId).findIdx? (fun item => item.book_id = bookId) with
  | none => simp [hfi]
  | some movingIndex =>
    cases hget : (rows sourceRowId)[movingIndex]? with
    | none => simp [hfi, hget]
    | some moving => simp [hfi, hget, updateRow_apply, hrs, hrt]

/-- C2: a failed mutation rolls the local state back exactly: for every
operation whose backend call fails, every row of the local placement map
(in particular the target row, and the source row of a cross-row move) is
restored exactly to its pre-operation snapshot, and the cached
unplaced-book list is restored to its pre-operation value. -/
theorem C2_failed_mutation_restores_snapshots (st : LocalState) (op : PlacementOp)
    (h : op.success = false) :
    (∀ r, (applyOp st op).rows r = st.rows r) ∧
    (applyOp st op).unplaced = st.unplaced := by
  cases op with
  | insert book t i s =>
    cases s with
    | true => simp [PlacementOp.success] at h
    | false =>
      constructor
      · intro r
        show (addBookToRowOutcome st book t i false).rows r = st.rows r
        unfold addBookToRowOutcome
        simp only [Bool.false_eq_true, if_false, addBookOptimisticRows, updateRow_apply]
        by_cases hr : r = t <;> simp [hr]
      · show (addBookToRowOutcome st book t i false).unplaced = st.unplaced
        unfold addBookToRowOutcome
        simp
  | move bookId src tgt i s =>
    cases s with
    | true => simp [PlacementOp.success] at h
    | false =>
      constructor
      · intro r
        show (moveBookBetweenRowsOutcome st bookId src tgt i false).rows r = st.rows r
        unfold moveBookBetweenRowsOutcome
        by_cases hst : src = tgt
        · simp [hst]
        · simp only [if_neg hst, Bool.false_eq_true, if_false, updateRow_apply]
          by_cases hrt : r = tgt
          · simp [hrt]
          · by_cases hrs : r = src
            · simp only [hrs, updateRow_apply, if_neg hst]
              simp
            · simp only [if_neg hrt, if_neg hrs]
              exact moveRowsOptimistic_other st.rows bookId src tgt i r hrs hrt
      · show (moveBookBetweenRowsOutcome st bookId src tgt i false).unplaced = st.unplaced
        unfold moveBookBetweenRowsOutcome
        by_cases hst : src = tgt <;> simp [hst]
  | reorder src fromIndex toIndex s =>
    cases s with
    | true => simp [PlacementOp.success] at h
    | false =>
      constructor
      · intro r
        show (reorderWithinRowOutcome st src fromIndex toIndex false).rows r = st.rows r
        unfold reorderWithinRowOutcome
        simp only [Bool.false_eq_true, if_false, updateRow_apply]
        by_cases hr : r = src <;> simp [hr]
      · show (reorderWithinRowOutcome st src fromIndex toIndex false).unplaced = st.unplaced
        unfold reorderWithinRowOutcome
        simp

/-- Witness for C2 at a concrete input: a failed insert into row 7 of a
board whose row 7 holds one book and whose unplaced cache holds one book
leaves every row and the unplaced cache exactly as they were. -/
theorem C2_failed_mutation_restores_snapshots_witness :
    (PlacementOp.insert { id := 2 } 7 0 false).success = false ∧
    ((∀ r, (applyOp
        { rows := fun r => if r = 7 then [{ book_id := 1, slot_index := 1 }] else [],
          unplaced := [{ id := 2 }] }
        (PlacementOp.insert { id := 2 } 7 0 false)).rows r =
      ({ rows := fun r => if r = 7 then [{ book_id := 1, slot_index := 1 }] else [],
         unplaced := [{ id := 2 }] } : LocalState).rows r) ∧
     (applyOp
        { rows := fun r => if r = 7 then [{ book_id := 1, slot_index := 1 }] else [],
          unplaced := [{ id := 2 }] }
        (PlacementOp.insert { id := 2 } 7 0 false)).unplaced =
      [{ id := 2 }]) := by
  refine ⟨rfl, C2_failed_mutation_restores_snapshots _ _ rfl⟩

theorem length_spliceInsert (xs : List α) (i : Nat) (x : α) :
    (spliceInsert xs i x).length = xs.length + 1 := by
  simp only [spliceInsert, List.length_append, List.length_take, List.length_cons,
    List.length_drop]
  omega

/-- Concrete board for the C3 analysis: row 7 holds book 1, row 8 holds
books 4 and 5 at slots 1 and 2. -/
def c3State : LocalState :=
  { rows := fun r =>
      if r = 7 then [{ book_id := 1, slot_index := 1 }]
      else if r = 8 then
        [{ book_id := 4, slot_index := 1 }, { book_id := 5, slot_index := 2 }]
      else [],
    unplaced := [] }

/-- C3 counterexample: moving book 1 from row 7 into row 8 (which holds
two placements) at 0-based index 0 issues a placement-assignment call
carrying slot index 3 (the append position of the target row before the
move), not the pre-renumbering requested index 0 + 1 = 1 that the claim
states. -/
theorem C3_assignment_call_index_counterexample :
    moveBookAssignCall c3State 1 7 8 0 =
      some { bookId := 1, rowId := 8, slotIndex := 3 } ∧ (3 : Nat) ≠ 0 + 1 := by
  constructor
  · rfl
  · decide

/-- C3 amended: an insert-from-unplaced at 0-based index `I` issues a
placement-assignment call carrying `I + 1`; a cross-row move issues a
placement-assignment call carrying the target row's placement count
before the move plus one (the append position), and — when the moved book
is present in the source row and the assignment succeeds — a follow-up
reorder call for the target row is issued if and only if `I` differs from
that pre-move placement count. -/
theorem C3_assignment_call_indices (st : LocalState) (book : Book)
    (bookId sourceRowId targetRowId targetIndex movingIndex : Nat)
    (hne : sourceRowId ≠ targetRowId)
    (hfound : (st.rows sourceRowId).findIdx? (fun item => item.book_id = bookId)
      = some movingIndex) :
    (addBookToRowAssignCall book targetRowId targetIndex).slotIndex = targetIndex + 1 ∧
    moveBookAssignCall st bookId sourceRowId targetRowId targetIndex =
      some { bookId := bookId, rowId := targetRowId,
             slotIndex := (st.rows targetRowId).length + 1 } ∧
    (moveIssuesReorder st bookId sourceRowId targetRowId targetIndex true = true ↔
      targetIndex ≠ (st.rows targetRowId).length) := by
  refine ⟨rfl, ?_, ?_⟩
  · unfold moveBookAssignCall
    rw [if_neg hne]
  · have hlt : movingIndex < (st.rows sourceRowId).length :=
      (List.findIdx?_eq_some_iff_findIdx_eq.mp hfound).1
    unfold moveIssuesReorder moveNextTargetOrder
    rw [if_neg hne]
    simp only [hfound, List.get?_eq_getElem?, List.getElem?_eq_getElem hlt,
      List.length_map, length_reindexPlacements, length_spliceInsert]
    simp

/-- Witness for C3 (amended) at a concrete input: the move of book 1 from
row 7 into row 8 of `c3State` at index 0 satisfies the hypotheses and the
conclusions. -/
theorem C3_assignment_call_indices_witness :
    ((7 : Nat) ≠ 8 ∧
      (c3State.rows 7).findIdx? (fun item => item.book_id = 1) = some 0) ∧
    ((addBookToRowAssignCall { id := 1 } 8 0).slotIndex = 0 + 1 ∧
      moveBookAssignCall c3State 1 7 8 0 =
        some { bookId := 1, rowId := 8, slotIndex := (c3State.rows 8).length + 1 } ∧
      (moveIssuesReorder c3State 1 7 8 0 true = true ↔
        (0 : Nat) ≠ (c3State.rows 8).length)) := by
  exact ⟨⟨by decide, by decide⟩,
    C3_assignment_call_indices c3State { id := 1 } 1 7 8 0 0 (by decide) (by decide)⟩

theorem totalSlots_some_eq (baseCount visibleSlots c : Nat) (hc : 0 < c) :
    totalSlots baseCount (some c) visibleSlots =
      min (max (if baseCount < c then baseCount + 1 else baseCount) visibleSlots) c := by
  unfold totalSlots effectiveCapacity
  simp [hc]

/-- C4: for a row with a finite capacity `c` holding `baseCount` placed
books, the number of addressable slots equals
`min (max (baseCount + 1) visibleSlots) c`; it never exceeds the
capacity, a full row (`baseCount = c`) offers zero additional open slots,
and whenever `baseCount < c` at least one open slot beyond the occupied
ones is offered.  The spec's scenarios are instances: capacity 3 with 3
books offers 3 slots (no open slot); capacity 5 with 2 books and the
minimum visible window of 4 offers 4 slots (slot 3 as append target plus
one window placeholder). -/
theorem C4_totalSlots_clamped (baseCount visibleSlots c : Nat) (hc : 0 < c) :
    totalSlots baseCount (some c) visibleSlots =
      min (max (baseCount + 1) visibleSlots) c ∧
    totalSlots baseCount (some c) visibleSlots ≤ c ∧
    (baseCount = c → totalSlots baseCount (some c) visibleSlots = baseCount) ∧
    (baseCount < c → baseCount + 1 ≤ totalSlots baseCount (some c) visibleSlots) ∧
    totalSlots 3 (some 3) MIN_VISIBLE_SLOTS = 3 ∧
    totalSlots 2 (some 5) MIN_VISIBLE_SLOTS = 4 := by
  rw [totalSlots_some_eq baseCount visibleSlots c hc]
  refine ⟨?_, ?_, ?_, ?_, by decide, by decide⟩
  · by_cases hroom : baseCount < c
    · simp [hroom]
    · simp only [if_neg hroom]
      omega
  · omega
  · intro hbc
    subst hbc
    simp
  · intro hroom
    simp only [if_pos hroom]
    omega

/-- Witness for C4 at a concrete input: capacity 5, 2 books, visible
window 4. -/
theorem C4_totalSlots_clamped_witness :
    (0 : Nat) < 5 ∧
    (totalSlots 2 (some 5) 4 = min (max (2 + 1) 4) 5 ∧
      totalSlots 2 (some 5) 4 ≤ 5 ∧
      ((2 : Nat) = 5 → totalSlots 2 (some 5) 4 = 2) ∧
      ((2 : Nat) < 5 → 2 + 1 ≤ totalSlots 2 (some 5) 4) ∧
      totalSlots 3 (some 3) MIN_VISIBLE_SLOTS = 3 ∧
      totalSlots 2 (some 5) MIN_VISIBLE_SLOTS = 4) :=
  ⟨by decide, C4_totalSlots_clamped 2 4 5 (by decide)⟩

theorem ceilDivNat_eq (a b : Nat) (hb : 0 < b) :
    ceilDivNat a b = a / b + if a % b = 0 then 0 else 1 := by
  unfold ceilDivNat
  have h1 : a + b - 1 = a + (b - 1) := by omega
  rw [h1, Nat.add_div hb]
  have h2 : (b - 1) / b = 0 := Nat.div_eq_of_lt (by omega)
  have h3 : (b - 1) % b = b - 1 := Nat.mod_eq_of_lt (by omega)
  have h4 : a % b < b := Nat.mod_lt _ hb
  rw [h2, h3]
  rcases Nat.eq_zero_or_pos (a % b) with h | h
  · rw [h, if_neg (by omega), if_pos rfl]
  · rw [if_pos (by omega), if_neg (by omega)]

/-- C7 counterexample: with `total = 25` and `page_size = 10` the computed
page count is 3, yet on page 1 (strictly below 3) the "Next" control is
disabled whenever a fetch is in flight, so "disabled exactly when
`page >= totalPages`" is false as stated. -/
theorem C7_next_disabled_counterexample :
    totalPages 25 10 10 = 3 ∧
    nextDisabled true 1 (totalPages 25 10 10) = true ∧
    ¬ (totalPages 25 10 10 ≤ 1) := by
  refine ⟨by decide, by decide, by decide⟩

/-- C7 amended: for a positive page size the computed page count is the
ceiling of `total / pageSize` with a minimum of 1 (`total = 0` still
yields one page), and — when no fetch is in flight — the "Next" control
is disabled exactly when the current page is at least that page count
(during a fetch it is additionally disabled); with `total = 25`,
`page_size = 10` the page count is 3 and (fetch idle) "Next" is disabled
exactly when `page ≥ 3`. -/
theorem C7_totalPages_and_next (total pageSize fallbackPageSize page : Nat)
    (hps : 0 < pageSize) :
    totalPages total pageSize fallbackPageSize =
      max 1 (total / pageSize + if total % pageSize = 0 then 0 else 1) ∧
    (total = 0 → totalPages total pageSize fallbackPageSize = 1) ∧
    (nextDisabled false page (totalPages total pageSize fallbackPageSize) = true ↔
      totalPages total pageSize fallbackPageSize ≤ page) ∧
    (∀ isFetching : Bool,
      nextDisabled isFetching page (totalPages total pageSize fallbackPageSize) = true ↔
        (isFetching = true ∨ totalPages total pageSize fallbackPageSize ≤ page)) ∧
    totalPages 25 10 fallbackPageSize = 3 ∧
    (∀ p, nextDisabled false p 3 = true ↔ 3 ≤ p) := by
  have hceil := ceilDivNat_eq total pageSize hps
  refine ⟨?_, ?_, ?_, ?_, ?_, ?_⟩
  · simp only [totalPages, if_neg (show ¬ pageSize = 0 by omega)]
    simp only [hceil]
  · intro h0
    subst h0
    simp only [totalPages, if_neg (show ¬ pageSize = 0 by omega)]
    simp only [hceil]
    simp
  · simp [nextDisabled]
  · intro isFetching
    cases isFetching <;> simp [nextDisabled]
  · unfold totalPages
    rw [if_neg (by decide)]
    decide
  · intro p
    simp [nextDisabled]

/-- Witness for C7 (amended) at a concrete input: `total = 25`,
`pageSize = 10`, fallback 10, page 2. -/
theorem C7_totalPages_and_next_witness :
    (0 : Nat) < 10 ∧
    (totalPages 25 10 10 = max 1 (25 / 10 + if 25 % 10 = 0 then 0 else 1) ∧
      ((25 : Nat) = 0 → totalPages 25 10 10 = 1) ∧
      (nextDisabled false 2 (totalPages 25 10 10) = true ↔ totalPages 25 10 10 ≤ 2) ∧
      (∀ isFetching : Bool,
        nextDisabled isFetching 2 (totalPages 25 10 10) = true ↔
          (isFetching = true ∨ totalPages 25 10 10 ≤ 2)) ∧
      totalPages 25 10 10 = 3 ∧
      (∀ p, nextDisabled false p 3 = true ↔ 3 ≤ p)) :=
  ⟨by decide, C7_totalPages_and_next 25 10 10 2 (by decide)⟩

/-- C9: for every non-empty cover path, `buildAssetUrl` returns the path
unchanged when it is already an absolute http/https URL, and otherwise
returns the configured backend base URL prefixed to the path, inserting a
`/` separator exactly when the path does not already start with one. -/
theorem C9_buildAssetUrl_resolution (baseURL p : String) (hp : p ≠ "") :
    (isAbsoluteUrl p = true → buildAssetUrl baseURL (some p) = some p) ∧
    (isAbsoluteUrl p = false →
      buildAssetUrl baseURL (some p) =
        some (baseURL ++ (if strStartsWith p "/" then p else "/" ++ p))) := by
  constructor
  · intro habs
    simp only [buildAssetUrl]
    rw [if_neg hp, if_pos habs]
  · intro habs
    simp only [buildAssetUrl]
    rw [if_neg hp, if_neg (by simp [habs])]

/-- Witness for C9 at concrete inputs: a relative path without a leading
slash, one with a leading slash, and an absolute URL. -/
theorem C9_buildAssetUrl_resolution_witness :
    (("covers/x.jpg" : String) ≠ "" ∧
      (isAbsoluteUrl "covers/x.jpg" = true →
        buildAssetUrl "http://127.0.0.1:8000" (some "covers/x.jpg") =
          some "covers/x.jpg") ∧
      (isAbsoluteUrl "covers/x.jpg" = false →
        buildAssetUrl "http://127.0.0.1:8000" (some "covers/x.jpg") =
          some ("http://127.0.0.1:8000" ++
            (if strStartsWith "covers/x.jpg" "/" then "covers/x.jpg"
             else "/" ++ "covers/x.jpg")))) ∧
    buildAssetUrl "http://127.0.0.1:8000" (some "covers/x.jpg") =
      some "http://127.0.0.1:8000/covers/x.jpg" ∧
    buildAssetUrl "http://127.0.0.1:8000" (some "/covers/x.jpg") =
      some "http://127.0.0.1:8000/covers/x.jpg" ∧
    buildAssetUrl "http://127.0.0.1:8000" (some "HTTPS://cdn.example/x.jpg") =
      some "HTTPS://cdn.example/x.jpg" := by
  refine ⟨⟨?_, (C9_buildAssetUrl_resolution "http://127.0.0.1:8000" "covers/x.jpg"
    (by decide)).1, (C9_buildAssetUrl_resolution "http://127.0.0.1:8000" "covers/x.jpg"
    (by decide)).2⟩, ?_, ?_, ?_⟩
  · decide
  · decide
  · decide
  · decide

/-- C8 counterexample: the success handler of the clear-placement mutation
invalidates only the `inventory-search` and `shelf-structure` query keys;
the `unplaced-books` key (the shelf-overview's unplaced view) is not among
them, so the claimed refresh of the unplaced-books view does not happen. -/
theorem C8_clear_placement_keys_counterexample :
    ("unplaced-books" ∈ clearPlacementInvalidatedKeys) = False ∧
    "unplaced-books" ∈ assignPlacementInvalidatedKeys := by
  constructor
  · simp [clearPlacementInvalidatedKeys]
  · simp [assignPlacementInvalidatedKeys]

/-- C8 amended: a successful clear-placement removes the book's placement
(the backend effect, modelled from the spec), after which the book
belongs to the derived unplaced section of the collection view; the
resulting cache invalidation refreshes the shelf-structure view and the
collection search (from which that unplaced section derives), but not the
shelf-overview's `unplaced-books` query key. -/
theorem C8_clear_placement_refresh (books : List Book) (bookId : Nat) (b : Book)
    (hmem : b ∈ clearPlacementServerEffect books bookId) (hid : b.id = bookId) :
    b ∈ unplacedBooks (clearPlacementServerEffect books bookId) ∧
    "shelf-structure" ∈ clearPlacementInvalidatedKeys ∧
    "inventory-search" ∈ clearPlacementInvalidatedKeys ∧
    "unplaced-books" ∉ clearPlacementInvalidatedKeys := by
  refine ⟨?_, by simp [clearPlacementInvalidatedKeys], by simp [clearPlacementInvalidatedKeys],
    by simp [clearPlacementInvalidatedKeys]⟩
  unfold unplacedBooks
  rw [List.mem_filter]
  refine ⟨hmem, ?_⟩
  unfold clearPlacementServerEffect at hmem
  rw [List.mem_map] at hmem
  obtain ⟨orig, _, horig⟩ := hmem
  by_cases horigid : orig.id = bookId
  · rw [if_pos horigid] at horig
    subst horig
    simp [isUnplacedBook]
  · rw [if_neg horigid] at horig
    subst horig
    exact absurd hid horigid

/-- Witness for C8 (amended) at a concrete input: clearing the placement
of book 2 (initially on row 5) in a two-book collection. -/
theorem C8_clear_placement_refresh_witness :
    ({ id := 2, shelf_row_id := none } : Book) ∈
      clearPlacementServerEffect
        [{ id := 1, shelf_row_id := some 4 }, { id := 2, shelf_row_id := some 5 }] 2 ∧
    ({ id := 2, shelf_row_id := none } : Book).id = 2 ∧
    (({ id := 2, shelf_row_id := none } : Book) ∈
      unplacedBooks (clearPlacementServerEffect
        [{ id := 1, shelf_row_id := some 4 }, { id := 2, shelf_row_id := some 5 }] 2) ∧
     "shelf-structure" ∈ clearPlacementInvalidatedKeys ∧
     "inventory-search" ∈ clearPlacementInvalidatedKeys ∧
     "unplaced-books" ∉ clearPlacementInvalidatedKeys) := by
  refine ⟨by decide, by decide, C8_clear_placement_refresh _ 2 _ (by decide) (by decide)⟩

/-- C5: a drag of a row item that ends on its own current position is a
complete no-op — the handler resolves it to `noop` (no network call, no
local state change).  Covered cases: dropping the item onto itself,
dropping it onto its own row's slot that resolves to its current index
(its own slot number `fromIndex + 1`), dropping it onto its own row's
append-zone while it is already last, and (in the per-row variant)
dropping an item onto the element with its own id. -/
theorem C5_self_position_drop_noop (rows : Nat → List ShelfPlacement)
    (sourceRowId bookId fromIndex : Nat) (bk : Option Book) (overId : Option Nat)
    (hfound : (rows sourceRowId).findIdx? (fun item => item.book_id = bookId)
      = some fromIndex) :
    handleDragEnd rows
      { sourceType := .row, rowId := some sourceRowId, bookId := bookId, book := bk }
      overId { targetType := .rowItem, rowId := sourceRowId, bookId := some bookId } =
      .noop ∧
    handleDragEnd rows
      { sourceType := .row, rowId := some sourceRowId, bookId := bookId, book := bk }
      overId { targetType := .rowSlot, rowId := sourceRowId,
               slotIndex := some (fromIndex + 1) } = .noop ∧
    (fromIndex = (rows sourceRowId).length - 1 →
      handleDragEnd rows
        { sourceType := .row, rowId := some sourceRowId, bookId := bookId, book := bk }
        overId { targetType := .row, rowId := sourceRowId } = .noop) ∧
    (∀ (ps : List ShelfPlacement) (activeId : Nat),
      handleRowDragEnd ps activeId activeId = none) := by
  have hlt : fromIndex < (rows sourceRowId).length :=
    (List.findIdx?_eq_some_iff_findIdx_eq.mp hfound).1
  refine ⟨?_, ?_, ?_, ?_⟩
  · simp [handleDragEnd, overBookId, hfound]
  · simp [handleDragEnd, resolveInsertionIndex, hfound, Nat.min_eq_left (Nat.le_of_lt hlt)]
  · intro hlast
    simp [handleDragEnd, hfound, hlast]
  · intro ps activeId
    simp [handleRowDragEnd]

/-- Witness for C5 at a concrete input: row 7 holds books 1, 2, 3; book 3
(the last item, index 2) dropped on itself, on its own slot 3, and on its
own row's append-zone. -/
theorem C5_self_position_drop_noop_witness :
    (((fun r => if r = 7 then
        [{ book_id := 1, slot_index := 1 }, { book_id := 2, slot_index := 2 },
         { book_id := 3, slot_index := 3 }] else [] : Nat → List ShelfPlacement) 7).findIdx?
      (fun item => item.book_id = 3) = some 2) ∧
    (handleDragEnd
      (fun r => if r = 7 then
        [{ book_id := 1, slot_index := 1 }, { book_id := 2, slot_index := 2 },
         { book_id := 3, slot_index := 3 }] else [])
      { sourceType := .row, rowId := some 7, bookId := 3, book := none }
      none { targetType := .rowItem, rowId := 7, bookId := some 3 } = .noop ∧
    handleDragEnd
      (fun r => if r = 7 then
        [{ book_id := 1, slot_index := 1 }, { book_id := 2, slot_index := 2 },
         { book_id := 3, slot_index := 3 }] else [])
      { sourceType := .row, rowId := some 7, bookId := 3, book := none }
      none { targetType := .rowSlot, rowId := 7, slotIndex := some (2 + 1) } = .noop ∧
    ((2 : Nat) = ((fun r => if r = 7 then
        [{ book_id := 1, slot_index := 1 }, { book_id := 2, slot_index := 2 },
         { book_id := 3, slot_index := 3 }] else [] : Nat → List ShelfPlacement) 7).length - 1 →
      handleDragEnd
        (fun r => if r = 7 then
          [{ book_id := 1, slot_index := 1 }, { book_id := 2, slot_index := 2 },
           { book_id := 3, slot_index := 3 }] else [])
        { sourceType := .row, rowId := some 7, bookId := 3, book := none }
        none { targetType := .row, rowId := 7 } = .noop) ∧
    (∀ (ps : List ShelfPlacement) (activeId : Nat),
      handleRowDragEnd ps activeId activeId = none)) := by
  exact ⟨by decide, C5_self_position_drop_noop _ 7 3 2 none none (by decide)⟩

theorem map_eraseIdx (f : α → β) : ∀ (l : List α) (i : Nat),
    (l.eraseIdx i).map f = (l.map f).eraseIdx i
  | [], _ => rfl
  | _ :: _, 0 => rfl
  | a :: l, i + 1 => by
    simp only [List.eraseIdx, List.map_cons]
    rw [map_eraseIdx f l i]

theorem map_spliceInsert (f : α → β) (l : List α) (i : Nat) (x : α) :
    (spliceInsert l i x).map f = spliceInsert (l.map f) i (f x) := by
  simp [spliceInsert, List.map_take, List.map_drop]

theorem map_arrayMove (f : α → β) (l : List α) (fi ti : Nat) (h : fi < l.length) :
    (arrayMove l fi ti).map f = arrayMove (l.map f) fi ti := by
  unfold arrayMove
  simp only [List.get?_eq_getElem?]
  rw [List.getElem?_eq_getElem h, List.getElem?_eq_getElem (by simpa using h)]
  simp [map_spliceInsert, map_eraseIdx, List.getElem_map]

/-- C6: a within-row reorder computes the new list by moving the dragged
element to the target position (`arrayMove`) and renumbering slot indices
densely, and the payload sent to the backend is the full explicit ordered
book-id list of the resulting row — equal to the move-transform applied to
the row's previous book-id order.  The spec scenario is an instance: for a
row holding books 1, 2, 3 at slots 1, 2, 3, dropping book 1 onto the item
at slot 3 yields the order `[2, 3, 1]` with slot indices `[1, 2, 3]`, in
both the board handler and the per-row handler. -/
theorem C6_reorder_moves_and_renumbers (rows : Nat → List ShelfPlacement)
    (rowId fromIndex toIndex : Nat) (h : fromIndex < (rows rowId).length) :
    (reorderAction rows rowId fromIndex toIndex =
      DragAction.reorder rowId
        (reindexPlacements (arrayMove (rows rowId) fromIndex toIndex))
        ((reindexPlacements (arrayMove (rows rowId) fromIndex toIndex)).map
          fun p => p.book_id)) ∧
    ((reindexPlacements (arrayMove (rows rowId) fromIndex toIndex)).map
        (fun p => p.book_id) =
      arrayMove ((rows rowId).map fun p => p.book_id) fromIndex toIndex) ∧
    dense (reindexPlacements (arrayMove (rows rowId) fromIndex toIndex)) ∧
    handleDragEnd
      (fun r => if r = 7 then
        [{ book_id := 1, slot_index := 1 }, { book_id := 2, slot_index := 2 },
         { book_id := 3, slot_index := 3 }] else [])
      { sourceType := .row, rowId := some 7, bookId := 1, book := none }
      none { targetType := .rowItem, rowId := 7, bookId := some 3 } =
      DragAction.reorder 7
        [{ book_id := 2, slot_index := 1 }, { book_id := 3, slot_index := 2 },
         { book_id := 1, slot_index := 3 }] [2, 3, 1] ∧
    handleRowDragEnd
      [{ book_id := 1, slot_index := 1 }, { book_id := 2, slot_index := 2 },
       { book_id := 3, slot_index := 3 }] 1 3 =
      some ([{ book_id := 2, slot_index := 1 }, { book_id := 3, slot_index := 2 },
             { book_id := 1, slot_index := 3 }], [2, 3, 1]) := by
  refine ⟨rfl, ?_, dense_reindexPlacements _, by decide, by decide⟩
  rw [map_book_id_reindexPlacements, map_arrayMove _ _ _ _ h]

/-- Witness for C6 at a concrete input: the same three-book row 7 with
`fromIndex = 0`. -/
theorem C6_reorder_moves_and_renumbers_witness :
    (0 : Nat) < (((fun r => if r = 7 then
        [{ book_id := 1, slot_index := 1 }, { book_id := 2, slot_index := 2 },
         { book_id := 3, slot_index := 3 }] else [] : Nat → List ShelfPlacement)) 7).length ∧
    (reorderAction
        (fun r => if r = 7 then
          [{ book_id := 1, slot_index := 1 }, { book_id := 2, slot_index := 2 },
           { book_id := 3, slot_index := 3 }] else []) 7 0 2 =
      DragAction.reorder 7
        (reindexPlacements (arrayMove
          ((fun r => if r = 7 then
            [{ book_id := 1, slot_index := 1 }, { book_id := 2, slot_index := 2 },
             { book_id := 3, slot_index := 3 }] else [] : Nat → List ShelfPlacement) 7) 0 2))
        ((reindexPlacements (arrayMove
          ((fun r => if r = 7 then
            [{ book_id := 1, slot_index := 1 }, { book_id := 2, slot_index := 2 },
             { book_id := 3, slot_index := 3 }] else [] : Nat → List ShelfPlacement) 7) 0 2)).map
          fun p => p.book_id) ∧
    ((reindexPlacements (arrayMove
        ((fun r => if r = 7 then
          [{ book_id := 1, slot_index := 1 }, { book_id := 2, slot_index := 2 },
           { book_id := 3, slot_index := 3 }] else [] : Nat → List ShelfPlacement) 7) 0 2)).map
        (fun p => p.book_id) =
      arrayMove (((fun r => if r = 7 then
          [{ book_id := 1, slot_index := 1 }, { book_id := 2, slot_index := 2 },
           { book_id := 3, slot_index := 3 }] else [] : Nat → List ShelfPlacement) 7).map
        fun p => p.book_id) 0 2) ∧
    dense (reindexPlacements (arrayMove
        ((fun r => if r = 7 then
          [{ book_id := 1, slot_index := 1 }, { book_id := 2, slot_index := 2 },
           { book_id := 3, slot_index := 3 }] else [] : Nat → List ShelfPlacement) 7) 0 2)) ∧
    handleDragEnd
      (fun r => if r = 7 then
        [{ book_id := 1, slot_index := 1 }, { book_id := 2, slot_index := 2 },
         { book_id := 3, slot_index := 3 }] else [])
      { sourceType := .row, rowId := some 7, bookId := 1, book := none }
      none { targetType := .rowItem, rowId := 7, bookId := some 3 } =
      DragAction.reorder 7
        [{ book_id := 2, slot_index := 1 }, { book_id := 3, slot_index := 2 },
         { book_id := 1, slot_index := 3 }] [2, 3, 1] ∧
    handleRowDragEnd
      [{ book_id := 1, slot_index := 1 }, { book_id := 2, slot_index := 2 },
       { book_id := 3, slot_index := 3 }] 1 3 =
      some ([{ book_id := 2, slot_index := 1 }, { book_id := 3, slot_index := 2 },
             { book_id := 1, slot_index := 3 }], [2, 3, 1])) := by
  exact ⟨by decide, C6_reorder_moves_and_renumbers _ 7 0 2 (by decide)⟩

/-- The maximum occupied slot index of a row (0 when no slot is
occupied). -/
def maxOccupiedSlot (placements : List ShelfPlacement) : Nat :=
  (placements.map fun p => p.slot_index).foldr max 0

theorem mem_le_foldr_max (l : List Nat) (x : Nat) (hx : x ∈ l) :
    x ≤ l.foldr max 0 := by
  induction l with
  | nil => cases hx
  | cons a t ih =>
    rcases List.mem_cons.mp hx with rfl | hxt
    · exact le_max_left _ _
    · exact le_trans (ih hxt) (le_max_right _ _)

theorem foldr_max_le (l : List Nat) (m : Nat) (h : ∀ x ∈ l, x ≤ m) :
    l.foldr max 0 ≤ m := by
  induction l with
  | nil => exact Nat.zero_le m
  | cons a t ih =>
    simp only [List.foldr_cons]
    exact max_le (h a (List.mem_cons_self a t)) (ih fun x hx => h x (List.mem_cons_of_mem a hx))

theorem sorted_le_lastD (l : List Nat) (hs : List.Sorted (· ≤ ·) l) (x : Nat)
    (hx : x ∈ l) : x ≤ l.getLast?.getD 0 := by
  induction l with
  | nil => cases hx
  | cons a t ih =>
    cases t with
    | nil =>
      rcases List.mem_cons.mp hx with rfl | h
      · simp
      · cases h
    | cons b t2 =>
      have hst : List.Sorted (· ≤ ·) (b :: t2) := (List.sorted_cons.mp hs).2
      have hlast : (b :: t2).getLast?.getD 0 ∈ b :: t2 :=
        (List.getLast?_eq_getLast (b :: t2) (by simp)) ▸
          List.getLast_mem (l := b :: t2) (by simp)
      rcases List.mem_cons.mp hx with rfl | hxt
      · calc x ≤ (b :: t2).getLast?.getD 0 :=
            (List.sorted_cons.mp hs).1 _ hlast
          _ = (x :: b :: t2).getLast?.getD 0 := by
            simp [List.getLast?_cons_cons]
      · calc x ≤ (b :: t2).getLast?.getD 0 := ih hst hxt
          _ = (a :: b :: t2).getLast?.getD 0 := by
            simp [List.getLast?_cons_cons]

theorem lastD_mem (l : List Nat) (h : l ≠ []) : l.getLast?.getD 0 ∈ l := by
  rw [List.getLast?_eq_getLast l h]
  exact List.getLast_mem h

theorem sortedLastD_eq_foldr_max (occ : List Nat) :
    ((occ.insertionSort (· ≤ ·)).getLast?.getD 0) = occ.foldr max 0 := by
  rcases eq_or_ne occ [] with rfl | hne
  · rfl
  · have hperm := List.perm_insertionSort (· ≤ ·) occ
    have hsorted := List.sorted_insertionSort (· ≤ ·) occ
    have hsne : occ.insertionSort (· ≤ ·) ≠ [] := by
      intro h0
      exact hne (List.Perm.eq_nil (h0 ▸ hperm).symm)
    apply le_antisymm
    · exact mem_le_foldr_max occ _ (hperm.mem_iff.mp (lastD_mem _ hsne))
    · apply foldr_max_le
      intro x hx
      exact sorted_le_lastD _ hsorted x (hperm.mem_iff.mpr hx)

/-- C10: for every list of placements with positive slot indices,
`computeAvailableSlots` returns a non-empty strictly increasing list of
positive integers consisting exactly of the unoccupied indices strictly
below the maximum occupied slot index, plus the single index
`max + 1` (and exactly `[1]` for an empty input); no returned slot index
equals an occupied slot index. -/
theorem C10_computeAvailableSlots_spec (placements : List ShelfPlacement)
    (hpos : ∀ p ∈ placements, 0 < p.slot_index) :
    computeAvailableSlots placements ≠ [] ∧
    List.Pairwise (· < ·) (computeAvailableSlots placements) ∧
    (∀ s ∈ computeAvailableSlots placements, 0 < s) ∧
    (placements = [] → computeAvailableSlots placements = [1]) ∧
    (∀ s ∈ computeAvailableSlots placements,
      s ∉ placements.map fun p => p.slot_index) ∧
    (∀ s, s ∈ computeAvailableSlots placements ↔
      ((0 < s ∧ s < maxOccupiedSlot placements ∧
        s ∉ placements.map fun p => p.slot_index) ∨
        s = maxOccupiedSlot placements + 1)) := by
  have hperm : ((placements.map fun p => p.slot_index).insertionSort (· ≤ ·)).Perm
      (placements.map fun p => p.slot_index) :=
    List.perm_insertionSort _ _
  have hMfold : ((placements.map fun p => p.slot_index).insertionSort
      (· ≤ ·)).getLast?.getD 0 = maxOccupiedSlot placements :=
    sortedLastD_eq_foldr_max _
  have hresult : computeAvailableSlots placements =
      ((List.range' 1 (maxOccupiedSlot placements)).filter fun i =>
        ! ((placements.map fun p => p.slot_index).insertionSort (· ≤ ·)).contains i) ++
      [maxOccupiedSlot placements + 1] := by
    simp only [computeAvailableSlots]
    rw [hMfold]
    simp
  have hMmem : maxOccupiedSlot placements ≠ 0 →
      maxOccupiedSlot placements ∈ placements.map fun p => p.slot_index := by
    intro hM0
    have hsne : (placements.map fun p => p.slot_index).insertionSort (· ≤ ·) ≠ [] := by
      intro h0
      rw [h0] at hMfold
      exact hM0 hMfold.symm
    rw [← hMfold]
    exact hperm.mem_iff.mp (lastD_mem _ hsne)
  have hub : ∀ x ∈ placements.map fun p => p.slot_index, x ≤ maxOccupiedSlot placements :=
    fun x hx => mem_le_foldr_max _ x hx
  have hmemfilter : ∀ s,
      s ∈ ((List.range' 1 (maxOccupiedSlot placements)).filter fun i =>
        ! ((placements.map fun p => p.slot_index).insertionSort (· ≤ ·)).contains i) ↔
      (1 ≤ s ∧ s < 1 + maxOccupiedSlot placements ∧
        s ∉ placements.map fun p => p.slot_index) := by
    intro s
    rw [List.mem_filter]
    constructor
    · rintro ⟨hr, hc⟩
      have hr2 := List.mem_range'_1.mp hr
      refine ⟨hr2.1, hr2.2, ?_⟩
      intro hmem
      simp at hc
      obtain ⟨p, hp, hps⟩ := List.mem_map.mp hmem
      exact hc p hp hps
    · rintro ⟨h1, h2, h3⟩
      refine ⟨List.mem_range'_1.mpr ⟨h1, h2⟩, ?_⟩
      have hnotmem : s ∉ (placements.map fun p => p.slot_index).insertionSort (· ≤ ·) :=
        fun hm => h3 (hperm.mem_iff.mp hm)
      simpa using hnotmem
  refine ⟨?_, ?_, ?_, ?_, ?_, ?_⟩
  · rw [hresult]
    simp
  · rw [hresult]
    rw [List.pairwise_append]
    refine ⟨List.Pairwise.filter _ (List.pairwise_lt_range' 1 _), by simp, ?_⟩
    intro x hx y hy
    have := (hmemfilter x).mp hx
    rcases List.mem_singleton.mp hy with rfl
    omega
  · intro s hs
    rw [hresult, List.mem_append] at hs
    rcases hs with hs | hs
    · have := (hmemfilter s).mp hs
      omega
    · rcases List.mem_singleton.mp hs with rfl
      omega
  · intro hempty
    subst hempty
    decide
  · intro s hs
    rw [hresult, List.mem_append] at hs
    rcases hs with hs | hs
    · exact ((hmemfilter s).mp hs).2.2
    · rcases List.mem_singleton.mp hs with rfl
      intro hmem
      have := hub _ hmem
      omega
  · intro s
    rw [hresult, List.mem_append, hmemfilter s, List.mem_singleton]
    constructor
    · rintro (⟨h1, h2, h3⟩ | rfl)
      · refine Or.inl ⟨h1, ?_, h3⟩
        rcases Nat.lt_or_ge s (maxOccupiedSlot placements) with hlt | hge
        · exact hlt
        · have hseq : s = maxOccupiedSlot placements := by omega
          subst hseq
          exact absurd (hMmem (by omega)) h3
      · exact Or.inr rfl
    · rintro (⟨h1, h2, h3⟩ | rfl)
      · exact Or.inl ⟨h1, by omega, h3⟩
      · exact Or.inr rfl

/-- Witness for C10 at a concrete input: placements at slots 1 and 3 (all
positive), for which the available slots are `[2, 4]`. -/
theorem C10_computeAvailableSlots_spec_witness :
    (∀ p ∈ [({ book_id := 1, slot_index := 1 } : ShelfPlacement),
            { book_id := 3, slot_index := 3 }], 0 < p.slot_index) ∧
    (computeAvailableSlots
        [{ book_id := 1, slot_index := 1 }, { book_id := 3, slot_index := 3 }] ≠ [] ∧
      List.Pairwise (· < ·) (computeAvailableSlots
        [{ book_id := 1, slot_index := 1 }, { book_id := 3, slot_index := 3 }]) ∧
      (∀ s ∈ computeAvailableSlots
        [{ book_id := 1, slot_index := 1 }, { book_id := 3, slot_index := 3 }], 0 < s) ∧
      (([({ book_id := 1, slot_index := 1 } : ShelfPlacement),
          { book_id := 3, slot_index := 3 }] : List ShelfPlacement) = [] →
        computeAvailableSlots
          [{ book_id := 1, slot_index := 1 }, { book_id := 3, slot_index := 3 }] = [1]) ∧
      (∀ s ∈ computeAvailableSlots
          [{ book_id := 1, slot_index := 1 }, { book_id := 3, slot_index := 3 }],
        s ∉ ([({ book_id := 1, slot_index := 1 } : ShelfPlacement),
              { book_id := 3, slot_index := 3 }] : List ShelfPlacement).map
            fun p => p.slot_index) ∧
      (∀ s, s ∈ computeAvailableSlots
          [{ book_id := 1, slot_index := 1 }, { book_id := 3, slot_index := 3 }] ↔
        ((0 < s ∧ s < maxOccupiedSlot
            [{ book_id := 1, slot_index := 1 }, { book_id := 3, slot_index := 3 }] ∧
          s ∉ ([({ book_id := 1, slot_index := 1 } : ShelfPlacement),
                { book_id := 3, slot_index := 3 }] : List ShelfPlacement).map
              fun p => p.slot_index) ∨
          s = maxOccupiedSlot
            [{ book_id := 1, slot_index := 1 }, { book_id := 3, slot_index := 3 }] + 1))) := by
  exact ⟨by decide, C10_computeAvailableSlots_spec _ (by decide)⟩
